import Mathlib

/-!
Verification development for the Figma-Context-MCP-AZTP repository.

The repository consists of `src/config.ts` (environment-based configuration)
and `src/index.ts` (AZTP startup script with `startServer`, and the
`FigmaMcpServer` class registering the `get_figma_data` and
`download_figma_images` tool handlers).

The embedding below translates the TypeScript into Lean:
  * environment variables become `Option String` (absent = `none`);
  * JavaScript truthiness of strings and of `string | null` values is made
    explicit (`undefined`, `null` and `""` are falsy);
  * `Number(...)` coercion of an environment string is modelled by
    `jsNumberOfString` on the decimal-integer fragment of its grammar
    (all theorem instances stay inside that fragment);
  * code that throws becomes `Except String`;
  * the Figma service calls (`getImageFills`, `getImages`, file fetching),
    whose implementation is not part of the repository sources, are modelled
    from the spec as oracles returning one `path | null` result per task.
-/

namespace FigmaMcp

/-! ### JavaScript value helpers -/

/-- Truthiness of a JavaScript `string | undefined` value:
`undefined` and the empty string are falsy, every other string is truthy. -/
def jsTruthyStr : Option String → Bool
  | none => false
  | some s => !(s == "")

/-- Truthiness of a JavaScript `string | null` download result
(`null` and the empty string are falsy). -/
def jsTruthyRes : Option String → Bool
  | none => false
  | some s => !(s == "")

/-- Decimal digits of a JavaScript numeric string: `some n` when every
character is a decimal digit (and the list is non-empty), `none` otherwise. -/
def decDigits : List Char → Option Nat
  | [] => none
  | cs =>
    cs.foldl
      (fun acc c =>
        acc.bind fun n => if c.isDigit then some (n * 10 + (c.toNat - 48)) else none)
      (some 0)

/-- JavaScript `Number(s)` on the decimal-integer fragment of its grammar:
`""` coerces to `0`, an optional sign followed by decimal digits coerces to
the signed integer, and anything else in this fragment is `NaN` (`none`).
Every configuration theorem below instantiates `PORT` inside this fragment. -/
def jsNumberOfString (s : String) : Option Int :=
  if s == "" then some 0
  else
    match s.toList with
    | '-' :: rest => (decDigits rest).map (fun n => -(n : Int))
    | '+' :: rest => (decDigits rest).map (fun n => (n : Int))
    | cs => (decDigits cs).map (fun n => (n : Int))

/-- JavaScript `x || d` for `x : number | NaN`: `NaN` (`none`) and `0` are
falsy and fall through to the default. -/
def jsNumOrDefault (x : Option Int) (d : Int) : Int :=
  match x with
  | none => d
  | some n => if n = 0 then d else n

/-- JavaScript `s.endsWith(suffix)`, modelled as a suffix test on the
character sequences of the two strings. -/
def jsEndsWith (s suffix : String) : Bool :=
  suffix.toList.isSuffixOf s.toList

/-- JavaScript `s.startsWith(p)`, modelled as a position-0 occurrence test
on the character sequences of the two strings. -/
def jsStartsWith (s p : String) : Bool :=
  p.toList.isPrefixOf s.toList

/-! ### `src/config.ts` -/

/-- The `ServerConfig` interface of `src/config.ts`. -/
structure ServerConfig where
  figmaApiKey : String
  port : Int
deriving Repr, DecidableEq

/-- Embeds `getServerConfig` from `src/config.ts`.

```ts
const figmaApiKey = process.env.FIGMA_API_KEY;
if (!figmaApiKey) { throw new Error("FIGMA_API_KEY is not set"); }
const port = isStdioMode ? 0 : Number(process.env.PORT) || 3000;
return { figmaApiKey, port };
```

`envFIGMA` and `envPORT` are the values of the `FIGMA_API_KEY` and `PORT`
environment variables; a thrown `Error` becomes `Except.error` of its message.
`Number(process.env.PORT)` with `PORT` unset is `Number(undefined) = NaN`,
modelled by `none`. -/
def getServerConfig (envFIGMA envPORT : Option String) (isStdioMode : Bool) :
    Except String ServerConfig :=
  match envFIGMA with
  | none => .error "FIGMA_API_KEY is not set"
  | some key =>
    if key = "" then .error "FIGMA_API_KEY is not set"
    else
      let numPORT : Option Int :=
        match envPORT with
        | none => none
        | some s => jsNumberOfString s
      let port : Int := if isStdioMode then 0 else jsNumOrDefault numPORT 3000
      .ok { figmaApiKey := key, port := port }

/-! ### `src/index.ts` startup script -/

/-- Embeds the module-load environment checks of `src/index.ts`:

```ts
if (!process.env.AZTP_API_KEY) { throw new Error("AZTP_API_KEY environment variable is not set"); }
if (!process.env.MCP_NAME) { throw new Error("MCP_NAME environment variable is not set"); }
const apiKey = process.env.AZTP_API_KEY;
const mcpName = process.env.MCP_NAME as string;
```

Returns the pair `(apiKey, mcpName)` when both checks pass; a module-load
throw (which terminates the Node process with a non-zero status before any
transport channel is opened) becomes `Except.error`. -/
def moduleLoadChecks (envAZTP envMCP : Option String) : Except String (String × String) :=
  if jsTruthyStr envAZTP = false then
    .error "AZTP_API_KEY environment variable is not set"
  else if jsTruthyStr envMCP = false then
    .error "MCP_NAME environment variable is not set"
  else
    .ok (envAZTP.getD "", envMCP.getD "")

/-- Outcome of `startServer` in `src/index.ts`: either the stdio channel is
connected and the server runs, or `process.exit(code)` was called after
`console.error("Failed to start server:", error)`. -/
inductive StartOutcome where
  | running
  | exited (code : Nat) (loggedError : String)
deriving Repr, DecidableEq

/-- Embeds `startServer` from `src/index.ts`.

```ts
const serverMode = process.env.SERVER_MODE || "stdio";
try {
  switch (serverMode) {
    case "stdio": ... await client.secureConnect(...); break;
    case "http": throw new Error("HTTP server mode not yet implemented");
    default: throw new Error(`Unsupported server mode: ${serverMode}`);
  }
} catch (error) { console.error("Failed to start server:", error); process.exit(1); }
```

`envSERVERMODE` is the `SERVER_MODE` environment variable (`||` makes the
empty string fall through to `"stdio"`); `connectResult` is the outcome of
`client.secureConnect` on the stdio transport, which may throw. -/
def startServer (envSERVERMODE : Option String) (connectResult : Except String Unit) :
    StartOutcome :=
  let serverMode : String :=
    match envSERVERMODE with
    | none => "stdio"
    | some s => if s == "" then "stdio" else s
  let body : Except String Unit :=
    if serverMode == "stdio" then connectResult
    else if serverMode == "http" then .error "HTTP server mode not yet implemented"
    else .error ("Unsupported server mode: " ++ serverMode)
  match body with
  | .ok _ => .running
  | .error e => .exited 1 ("Failed to start server: " ++ e)

/-! ### Theorems about configuration and startup -/

@[simp] lemma jsTruthyStr_none : jsTruthyStr none = false := rfl

@[simp] lemma jsTruthyStr_some (s : String) : jsTruthyStr (some s) = !(s == "") := rfl

/-- **C4.** When a mandatory credential is absent, startup throws: with
`FIGMA_API_KEY` unset, `getServerConfig` returns the `FIGMA_API_KEY` error
(never a config with a partial or default credential) for every `PORT` value
and mode; with `AZTP_API_KEY` unset, the module-load checks throw before any
channel is opened; and with `AZTP_API_KEY` present (truthy) but `MCP_NAME`
unset, the module-load checks throw the `MCP_NAME` error. A module-load or
pre-transport throw terminates the Node process with a non-zero status. -/
theorem missing_credentials_throw (envPORT : Option String) (mode : Bool)
    (envMCP : Option String) (envAZTP : Option String) :
    getServerConfig none envPORT mode = .error "FIGMA_API_KEY is not set" ∧
    moduleLoadChecks none envMCP = .error "AZTP_API_KEY environment variable is not set" ∧
    (jsTruthyStr envAZTP = true →
      moduleLoadChecks envAZTP none = .error "MCP_NAME environment variable is not set") := by
  refine ⟨rfl, rfl, ?_⟩
  intro h
  simp [moduleLoadChecks, h]

/-- Witness for `missing_credentials_throw` at concrete inputs. -/
theorem missing_credentials_throw_witness :
    getServerConfig none (some "8080") true = .error "FIGMA_API_KEY is not set" ∧
    moduleLoadChecks (some "aztp-key") none =
      .error "MCP_NAME environment variable is not set" :=
  ⟨(missing_credentials_throw (some "8080") true none (some "aztp-key")).1,
   (missing_credentials_throw (some "8080") true none (some "aztp-key")).2.2 (by decide)⟩

/-- **C5.** With a (truthy) `FIGMA_API_KEY` set: in stdio mode
`getServerConfig` returns port `0` (the sentinel "unused" value) for every
`PORT` environment value, and in non-stdio mode with `PORT` unset it returns
port `3000`. -/
theorem port_default_and_sentinel (key : String) (hkey : key ≠ "")
    (envPORT : Option String) :
    getServerConfig (some key) envPORT true = .ok { figmaApiKey := key, port := 0 } ∧
    getServerConfig (some key) none false = .ok { figmaApiKey := key, port := 3000 } := by
  constructor <;> simp [getServerConfig, hkey, jsNumOrDefault]

/-- Witness for `port_default_and_sentinel` at a concrete key and `PORT`. -/
theorem port_default_and_sentinel_witness :
    getServerConfig (some "figma-key") (some "9999") true =
      .ok { figmaApiKey := "figma-key", port := 0 } ∧
    getServerConfig (some "figma-key") none false =
      .ok { figmaApiKey := "figma-key", port := 3000 } :=
  port_default_and_sentinel "figma-key" (by decide) (some "9999")

/-- **C9.** In non-stdio mode, when `PORT` is set to a string whose
`Number(...)` coercion is falsy — non-numeric text (`NaN`) or a string
coercing to `0` such as `"0"` — `getServerConfig` silently returns port
`3000` rather than failing or returning the given value. -/
theorem port_falsy_falls_through (key : String) (hkey : key ≠ "") (s : String)
    (hs : jsNumberOfString s = none ∨ jsNumberOfString s = some 0) :
    getServerConfig (some key) (some s) false = .ok { figmaApiKey := key, port := 3000 } := by
  rcases hs with h | h <;>
    simp [getServerConfig, hkey, jsNumOrDefault, h]

/-- Witness for `port_falsy_falls_through`: non-numeric text `"abc"` and the
string `"0"` both yield port `3000`. -/
theorem port_falsy_falls_through_witness :
    getServerConfig (some "figma-key") (some "abc") false =
      .ok { figmaApiKey := "figma-key", port := 3000 } ∧
    getServerConfig (some "figma-key") (some "0") false =
      .ok { figmaApiKey := "figma-key", port := 3000 } :=
  ⟨port_falsy_falls_through "figma-key" (by decide) "abc" (.inl (by decide)),
   port_falsy_falls_through "figma-key" (by decide) "0" (.inr (by decide))⟩

/-- **C3.** For every effective server mode other than `"stdio"`,
`startServer` fails rather than silently succeeding: mode `"http"` exits
with status 1 logging the explicit not-implemented error, and any other
mode exits with status 1 logging the descriptive unsupported-mode error
naming the mode — regardless of how `secureConnect` would have behaved. -/
theorem non_stdio_modes_fail (s : String) (hstdio : s ≠ "stdio") (hempty : s ≠ "")
    (connectResult : Except String Unit) :
    (s = "http" →
      startServer (some s) connectResult =
        .exited 1 "Failed to start server: HTTP server mode not yet implemented") ∧
    (s ≠ "http" →
      startServer (some s) connectResult =
        .exited 1 ("Failed to start server: " ++ ("Unsupported server mode: " ++ s))) := by
  constructor
  · intro h
    subst h
    rfl
  · intro h
    simp [startServer, hstdio, hempty, h]

/-- Witness for `non_stdio_modes_fail`: the `"http"` mode and an unknown
`"websocket"` mode both exit non-zero with their respective errors. -/
theorem non_stdio_modes_fail_witness :
    startServer (some "http") (.ok ()) =
      .exited 1 "Failed to start server: HTTP server mode not yet implemented" ∧
    startServer (some "websocket") (.ok ()) =
      .exited 1 ("Failed to start server: " ++ ("Unsupported server mode: " ++ "websocket")) :=
  ⟨(non_stdio_modes_fail "http" (by decide) (by decide) (.ok ())).1 rfl,
   (non_stdio_modes_fail "websocket" (by decide) (by decide) (.ok ())).2 (by decide)⟩

/-! ### `download_figma_images` tool handler (`src/index.ts`) -/

/-- One entry of the `nodes` argument of `download_figma_images`:
`{ nodeId: string, imageRef?: string, fileName: string }`. -/
structure RequestedNode where
  nodeId : String
  imageRef : Option String
  fileName : String
deriving Repr, DecidableEq

/-- One entry of the `renderRequests` array built by the handler:
`{ nodeId, fileName, fileType: "svg" | "png" }`. -/
structure RenderRequest where
  nodeId : String
  fileName : String
  fileType : String
deriving Repr, DecidableEq

/-- `nodes.filter(({ imageRef }) => !!imageRef)` — the nodes sent to the
fill-download batch. -/
def imageFills (nodes : List RequestedNode) : List RequestedNode :=
  nodes.filter (fun n => jsTruthyStr n.imageRef)

/-- `nodes.filter(({ imageRef }) => !imageRef)` — the nodes sent to the
render-download batch. -/
def renderNodes (nodes : List RequestedNode) : List RequestedNode :=
  nodes.filter (fun n => !jsTruthyStr n.imageRef)

/-- The body of the `.map` building a render request:
`fileType: fileName.endsWith(".svg") ? "svg" : "png"`. -/
def mkRenderRequest (n : RequestedNode) : RenderRequest :=
  { nodeId := n.nodeId, fileName := n.fileName,
    fileType := if jsEndsWith n.fileName ".svg" then "svg" else "png" }

/-- The `renderRequests` array of the handler. -/
def renderRequests (nodes : List RequestedNode) : List RenderRequest :=
  (renderNodes nodes).map mkRenderRequest

/-- Modelled from the spec: `figmaService.getImageFills(fileKey, imageFills,
localPath)` (its implementation, `src/services/figma.ts`, is not part of the
repository sources). Per the spec it returns `sequence<path|null>` — one
result per requested fill, a saved path on success and a falsy value on a
failed download, without aborting siblings — so the per-task outcome is an
oracle parameter `result`. -/
def getImageFills (result : RequestedNode → Option String)
    (fills : List RequestedNode) : List (Option String) :=
  fills.map result

/-- Modelled from the spec: `figmaService.getImages(fileKey, renderRequests,
localPath)` — `sequence<path|null>`, one result per render request (see
`getImageFills`). -/
def getImages (result : RenderRequest → Option String)
    (reqs : List RenderRequest) : List (Option String) :=
  reqs.map result

/-- `await Promise.all([fillDownloads, renderDownloads]).then(([f, r]) =>
[...f, ...r])` — the joined download result list. -/
def downloadsOf (fillResult : RequestedNode → Option String)
    (renderResult : RenderRequest → Option String)
    (nodes : List RequestedNode) : List (Option String) :=
  getImageFills fillResult (imageFills nodes) ++
    getImages renderResult (renderRequests nodes)

/-- Truthiness of the value of `downloads.find((success) => !success)`:
`undefined` (no match) is falsy, and a found element is a `path | null`
download result whose own truthiness decides. -/
def jsTruthyFound : Option (Option String) → Bool
  | none => false
  | some r => jsTruthyRes r

/-- `const saveSuccess = !downloads.find((success) => !success)` from the
handler, with JavaScript `find` (first element satisfying the predicate, or
`undefined`) and `!` on the returned value. -/
def saveSuccess (downloads : List (Option String)) : Bool :=
  !(jsTruthyFound (downloads.find? (fun success => !jsTruthyRes success)))

/-- JavaScript `downloads.join(", ")`: `null` elements render as the empty
string. -/
def jsJoin (downloads : List (Option String)) : String :=
  String.intercalate ", " (downloads.map (fun r => r.getD ""))

/-- A `{ type, text }` content block of the MCP response envelope. -/
structure ContentBlock where
  type : String
  text : String
deriving Repr, DecidableEq

/-- The response envelope returned by a tool handler; a success return
carries no `isError` field, which is modelled as `isError := false`. -/
structure Envelope where
  isError : Bool
  content : List ContentBlock
deriving Repr, DecidableEq

/-- A single `{ type: "text", text }` content block. -/
def textBlock (s : String) : ContentBlock :=
  { type := "text", text := s }

/-- A success envelope with one text block (no `isError` field in the
source, modelled as `false`). -/
def okEnvelope (s : String) : Envelope :=
  { isError := false, content := [textBlock s] }

/-- An `isError: true` envelope with one text block. -/
def errEnvelope (s : String) : Envelope :=
  { isError := true, content := [textBlock s] }

/-- Embeds the full `download_figma_images` handler. `fillsCall` and
`renderCall` are the two service invocations, which may throw
(`Except.error`); the surrounding `try`/`catch` converts a thrown error into
the `isError` envelope, so the handler is a total function. -/
def download_figma_images (nodes : List RequestedNode)
    (fillsCall : List RequestedNode → Except String (List (Option String)))
    (renderCall : List RenderRequest → Except String (List (Option String))) :
    Envelope :=
  let body : Except String (List (Option String)) := do
    let f ← fillsCall (imageFills nodes)
    let r ← renderCall (renderRequests nodes)
    pure (f ++ r)
  match body with
  | .error e => errEnvelope ("Error downloading images: " ++ e)
  | .ok downloads =>
    let text : String :=
      if saveSuccess downloads then
        "Success, " ++ toString downloads.length ++ " images downloaded: " ++
          jsJoin downloads
      else "Failed"
    okEnvelope text

/-- The handler under the spec-modelled non-throwing services: both batches
complete, each task yielding its oracle's `path | null` result. -/
def download_figma_images_ok (nodes : List RequestedNode)
    (fillResult : RequestedNode → Option String)
    (renderResult : RenderRequest → Option String) : Envelope :=
  download_figma_images nodes
    (fun fs => .ok (getImageFills fillResult fs))
    (fun rs => .ok (getImages renderResult rs))

/-! ### Theorems about the download handler -/

/-- `!downloads.find((success) => !success)` is `true` on every list:
`find` returns either `undefined` (no falsy element) or the first falsy
element, and `!` of either value is `true`. -/
lemma saveSuccess_eq_true (downloads : List (Option String)) :
    saveSuccess downloads = true := by
  unfold saveSuccess
  cases hfind : downloads.find? (fun success => !jsTruthyRes success) with
  | none => rfl
  | some r =>
    have hr := List.find?_some hfind
    simp only [Bool.not_eq_true'] at hr
    simp [jsTruthyFound, hr]

/-- A one-node demo request whose render download fails (`null`). -/
def failingNode : RequestedNode :=
  { nodeId := "1:2", imageRef := none, fileName := "icon.png" }

/-- **C1.** Code bug: a request whose single node's download fails (the
spec-modelled service returns `null`) still produces the success envelope
`"Success, 1 images downloaded: "`. Since `saveSuccess` is `true` on every
download list (`saveSuccess_eq_true`), the handler can never report
`"Failed"` when `K > 0` downloads are unsuccessful, contradicting the
source's own comment (`// If any download fails, return false`) and the
spec's aggregate-failure requirement. -/
theorem download_failure_reported_as_success :
    download_figma_images_ok [failingNode] (fun _ => none) (fun _ => none) =
      okEnvelope "Success, 1 images downloaded: " := by
  rfl

/-- **C10.** Invoking the handler with an empty `nodes` array returns a
success envelope (no error flag) whose text is exactly
`"Success, 0 images downloaded: "`, which begins with
`"Success, 0 images downloaded"`, even though nothing was downloaded. -/
theorem empty_nodes_reports_zero_downloaded
    (fillResult : RequestedNode → Option String)
    (renderResult : RenderRequest → Option String) :
    download_figma_images_ok [] fillResult renderResult =
      okEnvelope "Success, 0 images downloaded: " ∧
    jsStartsWith "Success, 0 images downloaded: " "Success, 0 images downloaded" = true := by
  refine ⟨?_, by decide⟩
  show download_figma_images []
      (fun fs => .ok (getImageFills fillResult fs))
      (fun rs => .ok (getImages renderResult rs)) =
    okEnvelope "Success, 0 images downloaded: "
  simp only [download_figma_images, imageFills, renderNodes, renderRequests,
    getImageFills, getImages, List.filter_nil, List.map_nil]
  rfl

/-- **C7.** Every render request the handler constructs (from the nodes with
no truthy `imageRef`) has file type `"svg"` exactly when its file name ends
with `".svg"`, and `"png"` otherwise; the file name is the node's requested
file name, unchanged. -/
theorem render_file_type_from_extension (nodes : List RequestedNode)
    (r : RenderRequest) (hr : r ∈ renderRequests nodes) :
    (r.fileType = "svg" ↔ jsEndsWith r.fileName ".svg" = true) ∧
    (jsEndsWith r.fileName ".svg" = false → r.fileType = "png") := by
  rcases List.mem_map.mp hr with ⟨n, _, rfl⟩
  unfold mkRenderRequest
  by_cases h : jsEndsWith n.fileName ".svg" = true
  · simp [h]
  · simp only [Bool.not_eq_true] at h
    simp [h]

/-- A demo request node with a truthy `imageRef` (fill batch). -/
def demoFillNode : RequestedNode :=
  { nodeId := "3:4", imageRef := some "ref", fileName := "photo.png" }

/-- A demo request node with no `imageRef` (render batch). -/
def demoRenderNode : RequestedNode :=
  { nodeId := "1:2", imageRef := none, fileName := "icon.svg" }

/-- A demo two-node batch: one fill node and one render node. -/
def demoNodes : List RequestedNode := [demoFillNode, demoRenderNode]

/-- Witness for `render_file_type_from_extension`: the concrete `.svg`
render request built from `demoRenderNode` in the two-node demo batch. -/
theorem render_file_type_from_extension_witness :
    ((mkRenderRequest demoRenderNode).fileType = "svg" ↔
      jsEndsWith (mkRenderRequest demoRenderNode).fileName ".svg" = true) ∧
    (jsEndsWith (mkRenderRequest demoRenderNode).fileName ".svg" = false →
      (mkRenderRequest demoRenderNode).fileType = "png") :=
  render_file_type_from_extension demoNodes (mkRenderRequest demoRenderNode) (by decide)

/-- Lists filtered by a predicate and its negation partition the length. -/
lemma length_filter_add_length_filter_not {α : Type} (p : α → Bool) (l : List α) :
    (l.filter p).length + (l.filter (fun a => !p a)).length = l.length := by
  induction l with
  | nil => rfl
  | cons a l ih =>
    cases h : p a <;> simp [List.filter_cons, h] <;> omega

/-- **C8.** The handler partitions the requested nodes into exactly two
batches: every requested node goes to the fill batch when its `imageRef` is
truthy and to the render batch otherwise (never both), the two batch sizes
sum to the number of requested nodes, and the joined download list (one
spec-modelled result per task from each concurrently issued batch) has
length equal to the number of requested nodes. -/
theorem nodes_partition_and_download_count (nodes : List RequestedNode)
    (fillResult : RequestedNode → Option String)
    (renderResult : RenderRequest → Option String) :
    (imageFills nodes).length + (renderRequests nodes).length = nodes.length ∧
    (∀ n ∈ nodes,
      (n ∈ imageFills nodes ∧ n ∉ renderNodes nodes) ∨
      (n ∉ imageFills nodes ∧ n ∈ renderNodes nodes)) ∧
    (downloadsOf fillResult renderResult nodes).length = nodes.length := by
  have hlen : (imageFills nodes).length + (renderNodes nodes).length = nodes.length :=
    length_filter_add_length_filter_not
      (fun n : RequestedNode => jsTruthyStr n.imageRef) nodes
  have hrr : (renderRequests nodes).length = (renderNodes nodes).length :=
    List.length_map _ _
  refine ⟨by omega, ?_, ?_⟩
  · intro n hn
    by_cases h : jsTruthyStr n.imageRef = true
    · exact .inl ⟨List.mem_filter.mpr ⟨hn, h⟩,
        fun hc => by simpa [h] using (List.mem_filter.mp hc).2⟩
    · simp only [Bool.not_eq_true] at h
      exact .inr ⟨fun hc => by simpa [h] using (List.mem_filter.mp hc).2,
        List.mem_filter.mpr ⟨hn, by simp [h]⟩⟩
  · simp only [downloadsOf, getImageFills, getImages, List.length_append,
      List.length_map]
    omega

/-- Witness for `nodes_partition_and_download_count` at the concrete
two-node demo batch, with the universally quantified conjunct instantiated
at the fill node. -/
theorem nodes_partition_and_download_count_witness :
    (imageFills demoNodes).length + (renderRequests demoNodes).length =
        demoNodes.length ∧
    ((demoFillNode ∈ imageFills demoNodes ∧ demoFillNode ∉ renderNodes demoNodes) ∨
      (demoFillNode ∉ imageFills demoNodes ∧ demoFillNode ∈ renderNodes demoNodes)) ∧
    (downloadsOf (fun _ => none) (fun _ => none) demoNodes).length = demoNodes.length := by
  refine ⟨(nodes_partition_and_download_count demoNodes
      (fun _ => none) (fun _ => none)).1, ?_, ?_⟩
  · exact (nodes_partition_and_download_count demoNodes
        (fun _ => none) (fun _ => none)).2.1 demoFillNode (by decide)
  · exact (nodes_partition_and_download_count demoNodes
        (fun _ => none) (fun _ => none)).2.2

/-! ### JSON values and `JSON.stringify` (`get_figma_data` handler) -/

/-- A JSON value, the data serialized by `JSON.stringify` in the
`get_figma_data` handler (objects keep field order, as JavaScript does). -/
inductive JVal where
  | null
  | bool (b : Bool)
  | num (n : Int)
  | str (s : String)
  | arr (elems : List JVal)
  | obj (fields : List (String × JVal))

/-- The decimal digit character for `n` (callers keep `n < 10`). -/
def digitChar (n : Nat) : Char :=
  if n = 0 then '0' else if n = 1 then '1' else if n = 2 then '2'
  else if n = 3 then '3' else if n = 4 then '4' else if n = 5 then '5'
  else if n = 6 then '6' else if n = 7 then '7' else if n = 8 then '8' else '9'

/-- The lowercase hexadecimal digit character for `n` (callers keep `n < 16`). -/
def hexDigitChar (n : Nat) : Char :=
  if n = 0 then '0' else if n = 1 then '1' else if n = 2 then '2'
  else if n = 3 then '3' else if n = 4 then '4' else if n = 5 then '5'
  else if n = 6 then '6' else if n = 7 then '7' else if n = 8 then '8'
  else if n = 9 then '9' else if n = 10 then 'a' else if n = 11 then 'b'
  else if n = 12 then 'c' else if n = 13 then 'd' else if n = 14 then 'e'
  else 'f'

/-- Decimal digits of a natural number, most significant first (`fuel`
bounds the recursion; callers pass `n + 1`, which always suffices). -/
def natDigits : Nat → Nat → List Char
  | 0, _ => []
  | fuel + 1, n =>
    if n < 10 then [digitChar n]
    else natDigits fuel (n / 10) ++ [digitChar (n % 10)]

/-- The characters of the decimal representation of an integer. -/
def intChars : Int → List Char
  | .ofNat n => natDigits (n + 1) n
  | .negSucc m => '-' :: natDigits (m + 2) (m + 1)

/-- `JSON.stringify` rendering of an (integer) JSON number. -/
def numRepr (n : Int) : String := String.mk (intChars n)

/-- The JSON escape of one string character, as `JSON.stringify` emits it:
`"` and `\` get a backslash escape, the named control escapes are used for
backspace, form feed, newline, carriage return and tab, any other control
character becomes `\u00XX`, and every other character is kept as is. -/
def escChar (c : Char) : List Char :=
  if c = '"' then ['\\', '"']
  else if c = '\\' then ['\\', '\\']
  else if c = '\x08' then ['\\', 'b']
  else if c = '\x0c' then ['\\', 'f']
  else if c = '\n' then ['\\', 'n']
  else if c = '\r' then ['\\', 'r']
  else if c = '\t' then ['\\', 't']
  else if c.toNat < 32 then
    ['\\', 'u', '0', '0', hexDigitChar (c.toNat / 16), hexDigitChar (c.toNat % 16)]
  else [c]

/-- The JSON escape of a character sequence. -/
def escList : List Char → List Char
  | [] => []
  | c :: cs => escChar c ++ escList cs

/-- The JSON string literal for `s`: a double-quoted, escaped rendering. -/
def escapeStr (s : String) : String :=
  String.mk ('"' :: (escList s.toList ++ ['"']))

mutual
/-- Compact (no-whitespace) serialization of a JSON value — the canonical
form used to compare JSON texts up to insignificant whitespace. -/
def stringifyV : JVal → String
  | .null => "null"
  | .bool b => bif b then "true" else "false"
  | .num n => numRepr n
  | .str s => escapeStr s
  | .arr xs => "[" ++ stringifyItems xs ++ "]"
  | .obj fs => "\x7b" ++ stringifyMembers fs ++ "\x7d"

/-- Comma-separated compact items of a JSON array. -/
def stringifyItems : List JVal → String
  | [] => ""
  | [x] => stringifyV x
  | x :: y :: xs => stringifyV x ++ "," ++ stringifyItems (y :: xs)

/-- Comma-separated compact `"key":value` members of a JSON object. -/
def stringifyMembers : List (String × JVal) → String
  | [] => ""
  | [kv] => escapeStr kv.1 ++ ":" ++ stringifyV kv.2
  | kv :: m :: fs => escapeStr kv.1 ++ ":" ++ stringifyV kv.2 ++ "," ++ stringifyMembers (m :: fs)
end

/-- `n` spaces of indentation. -/
def indentChars (n : Nat) : List Char := List.replicate n ' '

/-- `n` spaces of indentation, as a string. -/
def indentStr (n : Nat) : String := String.mk (indentChars n)

mutual
/-- `JSON.stringify(v, null, 2)`: pretty serialization with two-space
indentation, rendered at surrounding indentation `ind` (the handler calls
it at top level, `ind = 0`). Empty arrays and objects print as `[]` and
braces with nothing between; non-empty ones put each item on its own line,
indented two further spaces, with `": "` after object keys. -/
def prettyV (ind : Nat) : JVal → String
  | .null => "null"
  | .bool b => bif b then "true" else "false"
  | .num n => numRepr n
  | .str s => escapeStr s
  | .arr [] => "[]"
  | .arr (x :: xs) =>
    "[\n" ++ prettyItems (ind + 2) (x :: xs) ++ "\n" ++ indentStr ind ++ "]"
  | .obj [] => "\x7b\x7d"
  | .obj (f :: fs) =>
    "\x7b\n" ++ prettyMembers (ind + 2) (f :: fs) ++ "\n" ++ indentStr ind ++ "\x7d"

/-- The lines of a pretty-printed non-empty JSON array body. -/
def prettyItems (ind : Nat) : List JVal → String
  | [] => ""
  | [x] => indentStr ind ++ prettyV ind x
  | x :: y :: xs => indentStr ind ++ prettyV ind x ++ ",\n" ++ prettyItems ind (y :: xs)

/-- The lines of a pretty-printed non-empty JSON object body. -/
def prettyMembers (ind : Nat) : List (String × JVal) → String
  | [] => ""
  | [kv] => indentStr ind ++ escapeStr kv.1 ++ ": " ++ prettyV ind kv.2
  | kv :: m :: fs =>
    indentStr ind ++ escapeStr kv.1 ++ ": " ++ prettyV ind kv.2 ++ ",\n" ++
      prettyMembers ind (m :: fs)
end

/-! ### Insignificant-whitespace normalization of JSON texts -/

/-- State of the whitespace scanner: outside any string literal, inside a
string literal, or inside a string literal right after a backslash. -/
inductive ScanSt where
  | out
  | instr
  | esc
deriving Repr, DecidableEq

/-- The JSON insignificant-whitespace characters (RFC 8259: space, newline,
tab, carriage return). -/
def isJsonWs (c : Char) : Bool :=
  c == ' ' || c == '\n' || c == '\t' || c == '\r'

/-- One scanner step: whitespace outside string literals is dropped, every
other character is kept, and quotes/backslashes drive the state. -/
def scanStep : ScanSt → Char → ScanSt × List Char
  | .out, c =>
    if isJsonWs c then (.out, [])
    else if c = '"' then (.instr, [c])
    else (.out, [c])
  | .instr, c =>
    if c = '\\' then (.esc, [c])
    else if c = '"' then (.out, [c])
    else (.instr, [c])
  | .esc, c => (.instr, [c])

/-- Runs the scanner over a character list, returning the kept output and
the final state. -/
def scanRun (st : ScanSt) : List Char → List Char × ScanSt
  | [] => ([], st)
  | c :: cs =>
    ((scanStep st c).2 ++ (scanRun (scanStep st c).1 cs).1,
      (scanRun (scanStep st c).1 cs).2)

/-- Removes the insignificant whitespace of a JSON text: whitespace outside
string literals is dropped, everything inside string literals (tracking
escape sequences) is kept. Two JSON texts with the same `stripWS` image
consist of the same token sequence and therefore parse to the same JSON
value. -/
def stripWS (s : String) : String := String.mk (scanRun .out s.toList).1

/-! ### Scanner lemmas -/

lemma indentStr_data (n : Nat) : (indentStr n).data = indentChars n := rfl

lemma scanRun_append (st : ScanSt) (l1 l2 : List Char) :
    scanRun st (l1 ++ l2) =
      ((scanRun st l1).1 ++ (scanRun (scanRun st l1).2 l2).1,
        (scanRun (scanRun st l1).2 l2).2) := by
  induction l1 generalizing st with
  | nil => simp [scanRun]
  | cons c cs ih => simp [scanRun, ih]

lemma scanStep_out_plain (c : Char) (hws : isJsonWs c = false) (hq : c ≠ '"') :
    scanStep ScanSt.out c = (ScanSt.out, [c]) := by
  simp [scanStep, hws, hq]

lemma scanStep_instr_plain (c : Char) (hb : c ≠ '\\') (hq : c ≠ '"') :
    scanStep ScanSt.instr c = (ScanSt.instr, [c]) := by
  simp [scanStep, hb, hq]

lemma scanRun_out_plain (l : List Char)
    (h : ∀ c ∈ l, isJsonWs c = false ∧ c ≠ '"') :
    scanRun ScanSt.out l = (l, ScanSt.out) := by
  induction l with
  | nil => rfl
  | cons c cs ih =>
    have hc := h c (by simp)
    have hcs : ∀ x ∈ cs, isJsonWs x = false ∧ x ≠ '"' := fun x hx => h x (by simp [hx])
    simp [scanRun, scanStep_out_plain c hc.1 hc.2, ih hcs]

lemma digitChar_plain (n : Nat) : isJsonWs (digitChar n) = false ∧ digitChar n ≠ '"' := by
  unfold digitChar
  split_ifs <;> exact ⟨by decide, by decide⟩

lemma natDigits_plain (fuel : Nat) :
    ∀ (n : Nat), ∀ c ∈ natDigits fuel n, isJsonWs c = false ∧ c ≠ '"' := by
  induction fuel with
  | zero => intro n c hc; simp [natDigits] at hc
  | succ fuel ih =>
    intro n c hc
    unfold natDigits at hc
    by_cases h : n < 10
    · simp [h] at hc
      subst hc
      exact digitChar_plain n
    · simp [h] at hc
      rcases hc with hc | hc
      · exact ih _ c hc
      · subst hc
        exact digitChar_plain _

lemma intChars_plain (n : Int) : ∀ c ∈ intChars n, isJsonWs c = false ∧ c ≠ '"' := by
  cases n with
  | ofNat m => exact natDigits_plain _ _
  | negSucc m =>
    intro c hc
    rcases List.mem_cons.mp hc with rfl | hc
    · exact ⟨by decide, by decide⟩
    · exact natDigits_plain _ _ c hc

lemma scanRun_numRepr (n : Int) :
    scanRun ScanSt.out (numRepr n).data = ((numRepr n).data, ScanSt.out) :=
  scanRun_out_plain _ (intChars_plain n)

lemma hexDigitChar_instr (n : Nat) :
    hexDigitChar n ≠ '\\' ∧ hexDigitChar n ≠ '"' := by
  unfold hexDigitChar
  by_cases h0 : n = 0
  · subst h0; exact ⟨by decide, by decide⟩
  by_cases h1 : n = 1
  · subst h1; exact ⟨by decide, by decide⟩
  by_cases h2 : n = 2
  · subst h2; exact ⟨by decide, by decide⟩
  by_cases h3 : n = 3
  · subst h3; exact ⟨by decide, by decide⟩
  by_cases h4 : n = 4
  · subst h4; exact ⟨by decide, by decide⟩
  by_cases h5 : n = 5
  · subst h5; exact ⟨by decide, by decide⟩
  by_cases h6 : n = 6
  · subst h6; exact ⟨by decide, by decide⟩
  by_cases h7 : n = 7
  · subst h7; exact ⟨by decide, by decide⟩
  by_cases h8 : n = 8
  · subst h8; exact ⟨by decide, by decide⟩
  by_cases h9 : n = 9
  · subst h9; exact ⟨by decide, by decide⟩
  by_cases h10 : n = 10
  · subst h10; exact ⟨by decide, by decide⟩
  by_cases h11 : n = 11
  · subst h11; exact ⟨by decide, by decide⟩
  by_cases h12 : n = 12
  · subst h12; exact ⟨by decide, by decide⟩
  by_cases h13 : n = 13
  · subst h13; exact ⟨by decide, by decide⟩
  by_cases h14 : n = 14
  · subst h14; exact ⟨by decide, by decide⟩
  simp only [h0, h1, h2, h3, h4, h5, h6, h7, h8, h9, h10, h11, h12, h13, h14,
    if_false, ite_false]
  exact ⟨by decide, by decide⟩

lemma scanRun_instr_escChar (c : Char) :
    scanRun ScanSt.instr (escChar c) = (escChar c, ScanSt.instr) := by
  unfold escChar
  split_ifs with h1 h2 h3 h4 h5 h6 h7 h8
  · decide
  · decide
  · decide
  · decide
  · decide
  · decide
  · decide
  · have ha := hexDigitChar_instr (c.toNat / 16)
    have hb := hexDigitChar_instr (c.toNat % 16)
    simp [scanRun, scanStep, ha.1, ha.2, hb.1, hb.2]
  · simp [scanRun, scanStep_instr_plain c h2 h1]

lemma scanRun_instr_escList (cs : List Char) :
    scanRun ScanSt.instr (escList cs) = (escList cs, ScanSt.instr) := by
  induction cs with
  | nil => rfl
  | cons c cs ih =>
    simp [escList, scanRun_append, scanRun_instr_escChar, ih]

lemma scanStep_out_quote : scanStep ScanSt.out '"' = (ScanSt.instr, ['"']) := by decide

lemma scanStep_instr_quote : scanStep ScanSt.instr '"' = (ScanSt.out, ['"']) := by decide

lemma scanRun_out_escapeStr (s : String) :
    scanRun ScanSt.out (escapeStr s).data = ((escapeStr s).data, ScanSt.out) := by
  show scanRun ScanSt.out ('"' :: (escList s.toList ++ ['"'])) =
    (('"' :: (escList s.toList ++ ['"'])), ScanSt.out)
  simp [scanRun, scanStep_out_quote, scanRun_append, scanRun_instr_escList,
    scanStep_instr_quote]

lemma scanRun_out_char_cons (c : Char) (h : scanStep ScanSt.out c = (ScanSt.out, [c]))
    (cs : List Char) :
    scanRun ScanSt.out (c :: cs) =
      (c :: (scanRun ScanSt.out cs).1, (scanRun ScanSt.out cs).2) := by
  simp [scanRun, h]

lemma scanRun_out_ws_cons (c : Char) (h : scanStep ScanSt.out c = (ScanSt.out, []))
    (cs : List Char) :
    scanRun ScanSt.out (c :: cs) = scanRun ScanSt.out cs := by
  simp [scanRun, h]

lemma scan_cons_lbrk (cs : List Char) :
    scanRun ScanSt.out ('[' :: cs) =
      ('[' :: (scanRun ScanSt.out cs).1, (scanRun ScanSt.out cs).2) :=
  scanRun_out_char_cons '[' (by decide) cs

lemma scan_cons_rbrk (cs : List Char) :
    scanRun ScanSt.out (']' :: cs) =
      (']' :: (scanRun ScanSt.out cs).1, (scanRun ScanSt.out cs).2) :=
  scanRun_out_char_cons ']' (by decide) cs

lemma scan_cons_lbrace (cs : List Char) :
    scanRun ScanSt.out ('\x7b' :: cs) =
      ('\x7b' :: (scanRun ScanSt.out cs).1, (scanRun ScanSt.out cs).2) :=
  scanRun_out_char_cons '\x7b' (by decide) cs

lemma scan_cons_rbrace (cs : List Char) :
    scanRun ScanSt.out ('\x7d' :: cs) =
      ('\x7d' :: (scanRun ScanSt.out cs).1, (scanRun ScanSt.out cs).2) :=
  scanRun_out_char_cons '\x7d' (by decide) cs

lemma scan_cons_comma (cs : List Char) :
    scanRun ScanSt.out (',' :: cs) =
      (',' :: (scanRun ScanSt.out cs).1, (scanRun ScanSt.out cs).2) :=
  scanRun_out_char_cons ',' (by decide) cs

lemma scan_cons_colon (cs : List Char) :
    scanRun ScanSt.out (':' :: cs) =
      (':' :: (scanRun ScanSt.out cs).1, (scanRun ScanSt.out cs).2) :=
  scanRun_out_char_cons ':' (by decide) cs

lemma scan_cons_nl (cs : List Char) :
    scanRun ScanSt.out ('\n' :: cs) = scanRun ScanSt.out cs :=
  scanRun_out_ws_cons '\n' (by decide) cs

lemma scan_cons_space (cs : List Char) :
    scanRun ScanSt.out (' ' :: cs) = scanRun ScanSt.out cs :=
  scanRun_out_ws_cons ' ' (by decide) cs

lemma scanRun_nil (st : ScanSt) : scanRun st [] = ([], st) := rfl

lemma scan_indent_append (n : Nat) (cs : List Char) :
    scanRun ScanSt.out (indentChars n ++ cs) = scanRun ScanSt.out cs := by
  induction n with
  | zero => rfl
  | succ n ih => simpa [indentChars, List.replicate_succ, scan_cons_space] using ih

lemma scanRun_out_indentChars (n : Nat) :
    scanRun ScanSt.out (indentChars n) = ([], ScanSt.out) := by
  induction n with
  | zero => rfl
  | succ n ih =>
    have hsp : scanStep ScanSt.out ' ' = (ScanSt.out, []) := by decide
    simp [indentChars, List.replicate_succ, scanRun, hsp]
    simpa [indentChars] using ih

mutual
/-- Stripping insignificant whitespace from the pretty serialization of a
JSON value (at any surrounding indentation) yields exactly its compact
serialization — the two texts consist of the same token sequence. -/
theorem scan_prettyV : ∀ (ind : Nat) (v : JVal),
    scanRun ScanSt.out (prettyV ind v).data = ((stringifyV v).data, ScanSt.out)
  | _, .null => by
    show scanRun ScanSt.out "null".data = ("null".data, ScanSt.out)
    decide
  | _, .bool true => by
    show scanRun ScanSt.out "true".data = ("true".data, ScanSt.out)
    decide
  | _, .bool false => by
    show scanRun ScanSt.out "false".data = ("false".data, ScanSt.out)
    decide
  | _, .num n => scanRun_numRepr n
  | _, .str s => scanRun_out_escapeStr s
  | _, .arr [] => by
    show scanRun ScanSt.out "[]".data = ("[]".data, ScanSt.out)
    decide
  | ind, .arr (x :: xs) => by
    have hitems := scan_prettyItems (ind + 2) (x :: xs)
    simp only [prettyV, stringifyV, String.data_append, indentStr_data]
    simp [scanRun_append, hitems, scan_cons_lbrk, scan_cons_rbrk, scan_cons_nl,
      scan_indent_append, scanRun_out_indentChars, scanRun_nil]
  | _, .obj [] => by
    show scanRun ScanSt.out "\x7b\x7d".data = ("\x7b\x7d".data, ScanSt.out)
    decide
  | ind, .obj (f :: fs) => by
    have hms := scan_prettyMembers (ind + 2) (f :: fs)
    simp only [prettyV, stringifyV, String.data_append, indentStr_data]
    simp [scanRun_append, hms, scan_cons_lbrace, scan_cons_rbrace, scan_cons_nl,
      scan_indent_append, scanRun_out_indentChars, scanRun_nil]

/-- Array-body analogue of `scan_prettyV`. -/
theorem scan_prettyItems : ∀ (ind : Nat) (xs : List JVal),
    scanRun ScanSt.out (prettyItems ind xs).data =
      ((stringifyItems xs).data, ScanSt.out)
  | _, [] => by
    show scanRun ScanSt.out "".data = ("".data, ScanSt.out)
    decide
  | ind, [x] => by
    have hx := scan_prettyV ind x
    simp only [prettyItems, stringifyItems, String.data_append, indentStr_data]
    simp [scanRun_append, scan_indent_append, scanRun_out_indentChars, hx]
  | ind, x :: y :: xs => by
    have hx := scan_prettyV ind x
    have hrest := scan_prettyItems ind (y :: xs)
    simp only [prettyItems, stringifyItems, String.data_append, indentStr_data]
    simp [scanRun_append, scan_indent_append, scanRun_out_indentChars, hx, hrest,
      scan_cons_comma, scan_cons_nl]

/-- Object-body analogue of `scan_prettyV`. -/
theorem scan_prettyMembers : ∀ (ind : Nat) (fs : List (String × JVal)),
    scanRun ScanSt.out (prettyMembers ind fs).data =
      ((stringifyMembers fs).data, ScanSt.out)
  | _, [] => by
    show scanRun ScanSt.out "".data = ("".data, ScanSt.out)
    decide
  | ind, [kv] => by
    have hv := scan_prettyV ind kv.2
    have hk := scanRun_out_escapeStr kv.1
    simp only [prettyMembers, stringifyMembers, String.data_append, indentStr_data]
    simp [scanRun_append, scan_indent_append, scanRun_out_indentChars, hk, hv,
      scan_cons_colon, scan_cons_space]
  | ind, kv :: m :: fs => by
    have hv := scan_prettyV ind kv.2
    have hk := scanRun_out_escapeStr kv.1
    have hrest := scan_prettyMembers ind (m :: fs)
    simp only [prettyMembers, stringifyMembers, String.data_append, indentStr_data]
    simp [scanRun_append, scan_indent_append, scanRun_out_indentChars, hk, hv, hrest,
      scan_cons_comma, scan_cons_nl, scan_cons_colon, scan_cons_space]
end

/-! ### `get_figma_data` tool handler (`src/index.ts`) -/

/-- Modelled from the spec: a `SimplifiedDesign` (built by
`src/services/simplify-node-response.ts`, which is not part of the
repository sources) is a JSON object with top-level metadata fields plus an
ordered `nodes` sequence and a `globalVars` map. `metaFields` are the
top-level fields other than `nodes` and `globalVars`, in object order. -/
structure SimplifiedDesign where
  metaFields : List (String × JVal)
  nodes : List JVal
  globalVars : JVal

/-- The field list of the design as a JavaScript object (metadata fields
followed by `nodes` and `globalVars`). -/
def designFields (d : SimplifiedDesign) : List (String × JVal) :=
  d.metaFields ++ [("nodes", .arr d.nodes), ("globalVars", d.globalVars)]

/-- The rest pattern of `const { nodes, globalVars, ...metadata } = file`:
every own field except `nodes` and `globalVars`, in object order. -/
def restMetadata (fields : List (String × JVal)) : List (String × JVal) :=
  fields.filter (fun kv => !(kv.1 == "nodes") && !(kv.1 == "globalVars"))

/-- JavaScript `Array.prototype.join(",")`. -/
def joinComma : List String → String
  | [] => ""
  | [s] => s
  | s :: t :: rest => s ++ "," ++ joinComma (t :: rest)

/-- The spliced result string of the `get_figma_data` success path:

```ts
const nodesJson = `[${nodes.map((node) => JSON.stringify(node, null, 2)).join(",")}]`;
const metadataJson = JSON.stringify(metadata, null, 2);
const globalVarsJson = JSON.stringify(globalVars, null, 2);
const resultJson = `{ "metadata": ${metadataJson}, "nodes": ${nodesJson}, "globalVars": ${globalVarsJson} }`;
```
-/
def resultJson (file : SimplifiedDesign) : String :=
  let metadata := restMetadata (designFields file)
  let nodesJson := "[" ++ joinComma (file.nodes.map (prettyV 0)) ++ "]"
  let metadataJson := prettyV 0 (.obj metadata)
  let globalVarsJson := prettyV 0 file.globalVars
  "\x7b \"metadata\": " ++ metadataJson ++ ", \"nodes\": " ++ nodesJson ++
    ", \"globalVars\": " ++ globalVarsJson ++ " \x7d"

/-- The JSON value of the full `{ metadata, nodes, globalVars }` object the
handler's spliced string denotes — the object a direct
`JSON.stringify({ metadata, nodes, globalVars }, null, 2)` would serialize. -/
def directValue (file : SimplifiedDesign) : JVal :=
  .obj [("metadata", .obj (restMetadata (designFields file))),
        ("nodes", .arr file.nodes),
        ("globalVars", file.globalVars)]

/-- Embeds the full `get_figma_data` handler. `svcResult` is the outcome of
the `figmaService.getNode`/`getFile` call, which may throw; the surrounding
`try`/`catch` converts a thrown error into the `isError` envelope, so the
handler is a total function. On success the handler returns a single text
content block holding the spliced `resultJson` string. -/
def get_figma_data : Except String SimplifiedDesign → Envelope
  | .error e => errEnvelope ("Error fetching file: " ++ e)
  | .ok file => okEnvelope (resultJson file)

/-- **C2.** Every exception thrown inside a tool handler is caught and
converted into an envelope with `isError := true` and a single text content
block carrying the exception's message (prefixed by the handler's context
text); both handlers are total functions of their service outcomes, so the
exception never propagates and a handler failure never terminates the
gateway process. Covers `get_figma_data` with a throwing fetch, and
`download_figma_images` with a throwing fill batch or a throwing render
batch. -/
theorem handler_exceptions_become_error_envelopes (e : String)
    (nodes : List RequestedNode)
    (renderCall : List RenderRequest → Except String (List (Option String)))
    (fillResult : RequestedNode → Option String) :
    get_figma_data (.error e) = errEnvelope ("Error fetching file: " ++ e) ∧
    download_figma_images nodes (fun _ => .error e) renderCall =
      errEnvelope ("Error downloading images: " ++ e) ∧
    download_figma_images nodes
        (fun fs => .ok (getImageFills fillResult fs)) (fun _ => .error e) =
      errEnvelope ("Error downloading images: " ++ e) := by
  exact ⟨rfl, rfl, rfl⟩

/-! ### The spliced `resultJson` string parses like the direct serialization -/

/-- Joining the individually pretty-printed array items with `","` strips
to the compact array body (the `nodesJson` splice). -/
lemma scan_joinComma : ∀ (xs : List JVal),
    scanRun ScanSt.out (joinComma (xs.map (prettyV 0))).data =
      ((stringifyItems xs).data, ScanSt.out)
  | [] => by
    show scanRun ScanSt.out "".data = ("".data, ScanSt.out)
    decide
  | [x] => by
    show scanRun ScanSt.out (prettyV 0 x).data = ((stringifyV x).data, ScanSt.out)
    exact scan_prettyV 0 x
  | x :: y :: xs => by
    have h1 := scan_prettyV 0 x
    have h2 := scan_joinComma (y :: xs)
    simp only [List.map_cons] at h2 ⊢
    simp only [joinComma, stringifyItems, String.data_append]
    simp [scanRun_append, h1, h2, scan_cons_comma]

lemma scan_cons_quote_out (cs : List Char) :
    scanRun ScanSt.out ('"' :: cs) =
      ('"' :: (scanRun ScanSt.instr cs).1, (scanRun ScanSt.instr cs).2) := by
  simp [scanRun, scanStep_out_quote]

lemma scan_cons_quote_instr (cs : List Char) :
    scanRun ScanSt.instr ('"' :: cs) =
      ('"' :: (scanRun ScanSt.out cs).1, (scanRun ScanSt.out cs).2) := by
  simp [scanRun, scanStep_instr_quote]

lemma scanRun_instr_char_cons (c : Char)
    (h : scanStep ScanSt.instr c = (ScanSt.instr, [c])) (cs : List Char) :
    scanRun ScanSt.instr (c :: cs) =
      (c :: (scanRun ScanSt.instr cs).1, (scanRun ScanSt.instr cs).2) := by
  simp [scanRun, h]

lemma scan_instr_m (cs : List Char) :
    scanRun ScanSt.instr ('m' :: cs) =
      ('m' :: (scanRun ScanSt.instr cs).1, (scanRun ScanSt.instr cs).2) :=
  scanRun_instr_char_cons 'm' (by decide) cs

lemma scan_instr_e (cs : List Char) :
    scanRun ScanSt.instr ('e' :: cs) =
      ('e' :: (scanRun ScanSt.instr cs).1, (scanRun ScanSt.instr cs).2) :=
  scanRun_instr_char_cons 'e' (by decide) cs

lemma scan_instr_t (cs : List Char) :
    scanRun ScanSt.instr ('t' :: cs) =
      ('t' :: (scanRun ScanSt.instr cs).1, (scanRun ScanSt.instr cs).2) :=
  scanRun_instr_char_cons 't' (by decide) cs

lemma scan_instr_a (cs : List Char) :
    scanRun ScanSt.instr ('a' :: cs) =
      ('a' :: (scanRun ScanSt.instr cs).1, (scanRun ScanSt.instr cs).2) :=
  scanRun_instr_char_cons 'a' (by decide) cs

lemma scan_instr_d (cs : List Char) :
    scanRun ScanSt.instr ('d' :: cs) =
      ('d' :: (scanRun ScanSt.instr cs).1, (scanRun ScanSt.instr cs).2) :=
  scanRun_instr_char_cons 'd' (by decide) cs

lemma scan_instr_n (cs : List Char) :
    scanRun ScanSt.instr ('n' :: cs) =
      ('n' :: (scanRun ScanSt.instr cs).1, (scanRun ScanSt.instr cs).2) :=
  scanRun_instr_char_cons 'n' (by decide) cs

lemma scan_instr_o (cs : List Char) :
    scanRun ScanSt.instr ('o' :: cs) =
      ('o' :: (scanRun ScanSt.instr cs).1, (scanRun ScanSt.instr cs).2) :=
  scanRun_instr_char_cons 'o' (by decide) cs

lemma scan_instr_s (cs : List Char) :
    scanRun ScanSt.instr ('s' :: cs) =
      ('s' :: (scanRun ScanSt.instr cs).1, (scanRun ScanSt.instr cs).2) :=
  scanRun_instr_char_cons 's' (by decide) cs

lemma scan_instr_g (cs : List Char) :
    scanRun ScanSt.instr ('g' :: cs) =
      ('g' :: (scanRun ScanSt.instr cs).1, (scanRun ScanSt.instr cs).2) :=
  scanRun_instr_char_cons 'g' (by decide) cs

lemma scan_instr_l (cs : List Char) :
    scanRun ScanSt.instr ('l' :: cs) =
      ('l' :: (scanRun ScanSt.instr cs).1, (scanRun ScanSt.instr cs).2) :=
  scanRun_instr_char_cons 'l' (by decide) cs

lemma scan_instr_b (cs : List Char) :
    scanRun ScanSt.instr ('b' :: cs) =
      ('b' :: (scanRun ScanSt.instr cs).1, (scanRun ScanSt.instr cs).2) :=
  scanRun_instr_char_cons 'b' (by decide) cs

lemma scan_instr_V (cs : List Char) :
    scanRun ScanSt.instr ('V' :: cs) =
      ('V' :: (scanRun ScanSt.instr cs).1, (scanRun ScanSt.instr cs).2) :=
  scanRun_instr_char_cons 'V' (by decide) cs

lemma scan_instr_r (cs : List Char) :
    scanRun ScanSt.instr ('r' :: cs) =
      ('r' :: (scanRun ScanSt.instr cs).1, (scanRun ScanSt.instr cs).2) :=
  scanRun_instr_char_cons 'r' (by decide) cs

lemma esc_metadata : escapeStr "metadata" = "\"metadata\"" := by decide

lemma esc_nodes : escapeStr "nodes" = "\"nodes\"" := by decide

lemma esc_globalVars : escapeStr "globalVars" = "\"globalVars\"" := by decide

/-- Stripping insignificant whitespace from the handler's spliced
`resultJson` string yields exactly the compact serialization of the full
`{ metadata, nodes, globalVars }` object. -/
lemma stripWS_resultJson (file : SimplifiedDesign) :
    stripWS (resultJson file) = stringifyV (directValue file) := by
  apply String.ext
  show (scanRun ScanSt.out (resultJson file).data).1 = (stringifyV (directValue file)).data
  have hm := scan_prettyV 0 (.obj (restMetadata (designFields file)))
  have hn := scan_joinComma file.nodes
  have hg := scan_prettyV 0 file.globalVars
  simp only [resultJson, directValue, stringifyV, stringifyMembers,
    String.data_append, esc_metadata, esc_nodes, esc_globalVars]
  simp [scanRun_append, hm, hn, hg, scanRun_nil, scan_cons_lbrace,
    scan_cons_rbrace, scan_cons_lbrk, scan_cons_rbrk, scan_cons_comma,
    scan_cons_colon, scan_cons_space, scan_cons_quote_out,
    scan_cons_quote_instr, scan_instr_m, scan_instr_e, scan_instr_t,
    scan_instr_a, scan_instr_d, scan_instr_n, scan_instr_o, scan_instr_s,
    scan_instr_g, scan_instr_l, scan_instr_b, scan_instr_V, scan_instr_r]
  simp [stringifyV, String.data_append, List.append_assoc]

/-- Stripping insignificant whitespace from the direct pretty serialization
of the full object also yields its compact serialization. -/
lemma stripWS_direct (file : SimplifiedDesign) :
    stripWS (prettyV 0 (directValue file)) = stringifyV (directValue file) := by
  apply String.ext
  show (scanRun ScanSt.out (prettyV 0 (directValue file)).data).1 =
    (stringifyV (directValue file)).data
  rw [scan_prettyV 0 (directValue file)]

/-- **C6.** On every successful `get_figma_data` invocation the handler
returns a single text content block holding the spliced `resultJson`
string; the rest-destructured `metadata` consists of exactly the design's
top-level fields other than `nodes` and `globalVars`; and the spliced
string — assembled by pretty-printing each node individually and splicing
the pieces into an object literal — equals, after dropping insignificant
JSON whitespace, the compact serialization of the full
`{ metadata, nodes, globalVars }` object, to which the direct
`JSON.stringify` of that object also strips: both texts consist of the same
token sequence and therefore parse to the same JSON value. -/
theorem spliced_result_equals_direct_serialization (file : SimplifiedDesign)
    (hmeta : ∀ kv ∈ file.metaFields, kv.1 ≠ "nodes" ∧ kv.1 ≠ "globalVars") :
    get_figma_data (.ok file) = okEnvelope (resultJson file) ∧
    restMetadata (designFields file) = file.metaFields ∧
    stripWS (resultJson file) = stringifyV (directValue file) ∧
    stripWS (prettyV 0 (directValue file)) = stringifyV (directValue file) := by
  refine ⟨rfl, ?_, stripWS_resultJson file, stripWS_direct file⟩
  unfold restMetadata designFields
  rw [List.filter_append]
  have h1 : file.metaFields.filter
      (fun kv => !(kv.1 == "nodes") && !(kv.1 == "globalVars")) = file.metaFields := by
    apply List.filter_eq_self.mpr
    intro kv hkv
    have := hmeta kv hkv
    simp [this.1, this.2]
  have h2 : ([(("nodes" : String), JVal.arr file.nodes),
      (("globalVars" : String), file.globalVars)]).filter
      (fun kv => !(kv.1 == "nodes") && !(kv.1 == "globalVars")) = [] := by
    simp [List.filter_cons]
  rw [h1, h2, List.append_nil]

/-- A concrete demo design: one metadata field, one node, empty globalVars. -/
def demoDesign : SimplifiedDesign :=
  { metaFields := [("name", .str "Demo File")],
    nodes := [.obj [("id", .str "1:2"), ("visible", .bool true)]],
    globalVars := .obj [] }

/-- Witness for `spliced_result_equals_direct_serialization` at the
concrete demo design. -/
theorem spliced_result_equals_direct_serialization_witness :
    get_figma_data (.ok demoDesign) = okEnvelope (resultJson demoDesign) ∧
    restMetadata (designFields demoDesign) = demoDesign.metaFields ∧
    stripWS (resultJson demoDesign) = stringifyV (directValue demoDesign) ∧
    stripWS (prettyV 0 (directValue demoDesign)) =
      stringifyV (directValue demoDesign) :=
  spliced_result_equals_direct_serialization demoDesign (by
    intro kv hkv
    rcases List.mem_singleton.mp hkv with rfl
    exact ⟨by decide, by decide⟩)

end FigmaMcp
